import Mathlib

/-!
Verification development for the City_Planning_Agent municipal pipeline.

The pipeline turns civic issues into a quarterly execution plan in three
stages: risk scoring / candidate formation, budget-constrained portfolio
selection (a greedy knapsack), and resource-constrained greedy scheduling
against a weekly capacity calendar with a weather oracle.

The definitions below are a shallow embedding of the Python source:
  - `src/municipal_agents/context.py` (risk scoring, calendar access),
  - `src/municipal_agents/database.py` (configuration constants),
  - `src/municipal_agents/governance_agent.py` (knapsack selection, approval),
  - `src/municipal_agents/scheduling_agent.py` (greedy scheduler),
  - `src/municipal_agents/mcp_servers.py` (mock weather service),
  - `src/municipal_agents/validation.py` (consistency validator).
Monetary amounts and risk scores (SQL REAL / Python float) are modelled as
exact rationals; SQLite integers as `Int`; nullable columns as `Option`.
-/

set_option maxRecDepth 4000

namespace CityPlanning

/-- Python truthiness of a nullable SQLite integer: `None` and `0` are falsy,
any other integer is truthy (used by `if signal.get("...")` in the source). -/
def truthy : Option Int → Bool
  | none => false
  | some v => v != 0

/-- Iverson bracket into the rationals. -/
def b2r (b : Bool) : Rat := if b then 1 else 0

/-- Auxiliary counter for `intRange`: `n` consecutive integers from `s`. -/
def intRangeGo : Int → Nat → List Int
  | _, 0 => []
  | s, n + 1 => s :: intRangeGo (s + 1) n

/-- `intRange a b` is the list `[a, a+1, ..., b-1]`, Python's `range(a, b)`. -/
def intRange (a b : Int) : List Int := intRangeGo a (b - a).toNat

/-! ## Risk configuration and scoring (`database.py`, `context.py`) -/

/-- The four risk weights (`RISK_WEIGHTS` in `database.py`). -/
structure RiskWeights where
  safety_risk : Rat
  legal_mandate : Rat
  population_impact : Rat
  complaint_volume : Rat
deriving DecidableEq

/-- The risk thresholds (`RISK_THRESHOLDS` in `database.py`). -/
structure RiskThresholds where
  high_population : Int
  high_complaints : Int
  high_risk_score : Rat
deriving DecidableEq

/-- Default weights, `database.py` lines 241-246. -/
def RISK_WEIGHTS : RiskWeights :=
  { safety_risk := 3, legal_mandate := 3, population_impact := 1, complaint_volume := 1 }

/-- Default thresholds, `database.py` lines 235-239. -/
def RISK_THRESHOLDS : RiskThresholds :=
  { high_population := 100000, high_complaints := 75, high_risk_score := 3 }

/-- A row of `issue_signals` as seen through the LEFT JOIN queries: a
field is `none` when its column is SQL NULL. The two callers of
`compute_risk_score` (`calculate_risk_score` and the shim's formation
loop) both pass LEFT-JOIN rows, which materialise every key, so Python's
`dict.get` default value never applies to these fields. -/
structure Signal where
  population_affected : Option Int
  complaint_count : Option Int
  safety_risk : Option Int
  legal_mandate : Option Int
  estimated_cost : Option Int
  urgency_days : Option Int
deriving DecidableEq

/-- The signal columns of an issue that has no `issue_signals` row: the
LEFT JOIN leaves every column NULL. -/
def emptySignal : Signal :=
  { population_affected := none, complaint_count := none, safety_risk := none,
    legal_mandate := none, estimated_cost := none, urgency_days := none }

/-- `MunicipalContext.compute_risk_score` (`context.py` lines 258-277):
score starts at 0 and each factor adds its weight. The two flag fields go
through Python truthiness (`if signal.get(...)`), where NULL is simply
falsy; but the two numeric factors compare the stored value directly
(`signal.get("population_affected", 0) >= threshold` — the default 0 is
only for an absent key, and the LEFT-JOIN rows always carry the key), so
a NULL numeric field makes Python compare `None >= int` and raise
TypeError, modelled here as `none`. The population comparison runs before
the complaint comparison, so either NULL aborts the computation. -/
def compute_risk_score (w : RiskWeights) (t : RiskThresholds) (signal : Signal) :
    Option Rat :=
  match signal.population_affected, signal.complaint_count with
  | some pop, some cpl =>
    some ((if truthy signal.safety_risk then w.safety_risk else 0) +
      (if truthy signal.legal_mandate then w.legal_mandate else 0) +
      (if pop ≥ t.high_population then w.population_impact else 0) +
      (if cpl ≥ t.high_complaints then w.complaint_volume else 0))
  | _, _ => none

/-- `CREW_MAPPING` (`database.py` lines 249-256). -/
def CREW_MAPPING : List (String × String) :=
  [("Water", "water_crew"), ("Health", "electrical_crew"),
   ("Disaster Management", "construction_crew"), ("Infrastructure", "construction_crew"),
   ("Recreation", "general_crew"), ("Education", "general_crew")]

/-- `MunicipalContext.get_crew_type` (`context.py` lines 279-281):
dictionary lookup with default crew `general_crew`. -/
def get_crew_type (m : List (String × String)) (category : String) : String :=
  match m.find? (fun p => p.1 == category) with
  | some p => p.2
  | none => "general_crew"

/-- The cost-tier step function of `estimate_project_resources`
(`formation_agent.py` lines 117-128): returns (weeks, crew size). -/
def estimate_project_resources (estimated_cost : Rat) : Int × Int :=
  if estimated_cost ≥ 50000000 then (8, 3)
  else if estimated_cost ≥ 10000000 then (4, 2)
  else if estimated_cost ≥ 1000000 then (2, 2)
  else (1, 1)

/-! ## Issues and candidate formation -/

/-- A row of `issues` LEFT JOINed with its signal (`get_open_issues`,
`get_issue_by_id` in `context.py`). `signal = none` models an issue without
an `issue_signals` row. -/
structure IssueRow where
  issue_id : Int
  title : String
  category : String
  status : String
  signal : Option Signal
deriving DecidableEq

/-- A project proposal as inserted by `insert_project_candidate`
(before the database assigns a `project_id`). -/
structure ProposedCandidate where
  issue_id : Int
  title : String
  estimated_cost : Rat
  estimated_weeks : Int
  required_crew_type : String
  crew_size : Int
  risk_score : Rat
  feasibility_score : Rat
deriving DecidableEq

/-- The signal columns of an issue's LEFT-JOIN row: an issue without an
`issue_signals` row carries all-NULL signal columns. -/
def signalOf (i : IssueRow) : Signal := i.signal.getD emptySignal

/-- The candidate insert of the shim's Formation branch
(`src/agents/__init__.py` lines 98-120): title "Project for <issue
title>", cost from the signal's estimate with `... or 0` collapsing NULL
to 0, duration and crew size from the same cost tiers as
`estimate_project_resources` (the shim inlines the identical four-way
step function), crew type from the category mapping, and the computed
risk score; `feasibility_score` keeps the insert's 1.0 default. -/
def mkCandidateShim (m : List (String × String)) (i : IssueRow) (score : Rat) :
    ProposedCandidate :=
  let est : Int := (signalOf i).estimated_cost.getD 0
  let tiers := estimate_project_resources ((est : Int) : Rat)
  { issue_id := i.issue_id, title := "Project for " ++ i.title,
    estimated_cost := ((est : Int) : Rat), estimated_weeks := tiers.1,
    required_crew_type := get_crew_type m i.category, crew_size := tiers.2,
    risk_score := score, feasibility_score := 1 }

/-- The Formation branch of the local agents shim's `Runner.run`
(`src/agents/__init__.py` lines 89-124), which implements candidate
formation as executable code: for every open issue (the input list is
`get_open_issues`, already filtered to status OPEN), in order, compute
the risk score of its LEFT-JOIN row and insert a candidate exactly when
the score reaches the high-risk threshold. Returns the candidates
persisted so far, paired with `true` when the loop ran to completion; a
`none` score — the TypeError on a NULL numeric signal field — aborts the
stage, keeping the inserts already committed (`false`). -/
def formCandidates (w : RiskWeights) (t : RiskThresholds) (m : List (String × String)) :
    List IssueRow → List ProposedCandidate × Bool
  | [] => ([], true)
  | i :: rest =>
    match compute_risk_score w t (signalOf i) with
    | none => ([], false)
    | some score =>
      if score ≥ t.high_risk_score then
        let r := formCandidates w t m rest
        (mkCandidateShim m i score :: r.1, r.2)
      else formCandidates w t m rest

/-! ## Portfolio selection (`governance_agent.py`) -/

/-- A row of `project_candidates` as returned by `get_project_candidates`
(presentation-only columns such as `scope` are omitted). -/
structure CandRow where
  project_id : Int
  issue_id : Int
  estimated_cost : Rat
  estimated_weeks : Int
  required_crew_type : String
  crew_size : Int
  risk_score : Rat
deriving DecidableEq

/-- A candidate enriched with the legal-mandate flag of its issue
(`run_knapsack_optimization`, `governance_agent.py` lines 121-127). -/
structure Cand extends CandRow where
  legal_mandate : Option Int
deriving DecidableEq

/-- The enrichment step `{**c, "legal_mandate": issue.get("legal_mandate", 0)
if issue else 0}`: when the issue row is found the (possibly NULL) joined
signal column is used, otherwise the Python default `0`. -/
def enrich (issues : List IssueRow) (c : CandRow) : Cand :=
  { toCandRow := c,
    legal_mandate :=
      match issues.find? (fun i => i.issue_id == c.issue_id) with
      | some i => i.signal.bind (fun s => s.legal_mandate)
      | none => some 0 }

/-- `enriched = [enrich(c) for c in candidates]`. -/
def knapsack_enrich (issues : List IssueRow) (candidates : List CandRow) : List Cand :=
  candidates.map (enrich issues)

/-- Value density `risk_score / (estimated_cost / 1_000_000)`
(`governance_agent.py` line 146), risk points per million spent. -/
def value_density (c : Cand) : Rat :=
  c.risk_score / (c.estimated_cost / 1000000)

/-- `densityLe a b` holds when `a` may precede `b` in the descending
density order (`a`'s density is at least `b`'s). -/
def densityLe (a b : Cand) : Bool := decide (value_density b ≤ value_density a)

/-- Insert `c` into `l` before the first element it may precede. Together
with `stableSort` this models Python's stable `list.sort`. -/
def insertStable {α : Type} (le : α → α → Bool) (c : α) : List α → List α
  | [] => [c]
  | x :: xs => if le c x then c :: x :: xs else x :: insertStable le c xs

/-- Stable insertion sort: the model of Python's `list.sort(key=...)`,
which is stable (ties keep their original relative order). -/
def stableSort {α : Type} (le : α → α → Bool) : List α → List α
  | [] => []
  | c :: cs => insertStable le c (stableSort le cs)

/-- One greedy pass (`governance_agent.py` lines 135-138 and 151-154): walk
the list in order, accept a candidate iff its estimated cost is at most the
remaining budget, deducting the cost on acceptance. Returns the accepted
candidates in order and the remaining budget. -/
def greedy_take : List Cand → Rat → List Cand × Rat
  | [], r => ([], r)
  | c :: cs, r =>
    if c.estimated_cost ≤ r then
      let rest := greedy_take cs (r - c.estimated_cost)
      (c :: rest.1, rest.2)
    else greedy_take cs r

/-- `mandates = [c for c in enriched if c["legal_mandate"]]`. -/
def knapsack_mandates (enriched : List Cand) : List Cand :=
  enriched.filter (fun c => truthy c.legal_mandate)

/-- Phase 1 of `run_knapsack_optimization`: include legal mandates first
when enabled (lines 133-138). -/
def knapsack_phase1 (enriched : List Cand) (budget : Rat) (mi : Bool) : List Cand × Rat :=
  if mi then greedy_take (knapsack_mandates enriched) budget else ([], budget)

/-- `remaining_candidates = [c for c in enriched if c["project_id"] not in
already_selected_ids]` (lines 141-142). -/
def knapsack_remaining (enriched : List Cand) (sel1 : List Cand) : List Cand :=
  enriched.filter (fun c => !(decide (c.project_id ∈ sel1.map (fun x => x.project_id))))

/-- The two-phase greedy selection of `run_knapsack_optimization`
(`governance_agent.py` lines 129-154): mandates first, then the rest sorted
by value density descending (Python's stable sort), each accepted iff its
cost fits the remaining budget. Returns (selected in order, remaining). -/
def knapsack_selected (enriched : List Cand) (budget : Rat) (mi : Bool) : List Cand × Rat :=
  let p1 := knapsack_phase1 enriched budget mi
  let p2 := greedy_take (stableSort densityLe (knapsack_remaining enriched p1.1)) p1.2
  (p1.1 ++ p2.1, p2.2)

/-- Result of the knapsack tool: selected candidates in selection order,
remaining budget, and the rejected project ids (line 157). -/
structure KnapsackResult where
  selected : List Cand
  remaining_budget : Rat
  rejected_ids : List Int
deriving DecidableEq

/-- `run_knapsack_optimization` (`governance_agent.py` lines 96-181), the
deterministic selection part (the formatted report string is omitted). -/
def run_knapsack_optimization (candidates : List CandRow) (issues : List IssueRow)
    (budget : Rat) (must_include_legal_mandates : Bool) : KnapsackResult :=
  let enriched := knapsack_enrich issues candidates
  let sel := knapsack_selected enriched budget must_include_legal_mandates
  { selected := sel.1
    remaining_budget := sel.2
    rejected_ids :=
      (enriched.filter
        (fun c => !(decide (c.project_id ∈ sel.1.map (fun x => x.project_id))))).map
        (fun c => c.project_id) }

/-- The priority rank a project receives after allocation: its 1-based
selection order when selected (the source enumerates the recommended
approvals from 1, and `approve_project` records that rank), or the
sentinel low-priority rank 999 recorded by `reject_project`
(`governance_agent.py` line 283). -/
def priority_rank_of (res : KnapsackResult) (pid : Int) : Int :=
  match res.selected.findIdx? (fun c => c.project_id == pid) with
  | some i => (i : Int) + 1
  | none => 999

/-- Spec-side definition for the refinement claim C3, following the words of
§4.2: mandatory phase over every candidate whose issue carries the
legal-mandate flag, in encounter order; then all not-yet-selected
candidates (as elements) ranked by value density descending with ties
broken by original ordering, each accepted iff its cost fits. -/
def knapsack_spec_selected (enriched : List Cand) (budget : Rat) : List Cand × Rat :=
  let p1 := greedy_take (enriched.filter (fun c => truthy c.legal_mandate)) budget
  let notSelected := enriched.filter (fun c => !(decide (c ∈ p1.1)))
  let p2 := greedy_take (stableSort densityLe notSelected) p1.2
  (p1.1 ++ p2.1, p2.2)

/-- A row of `portfolio_decisions` (presentation columns omitted). -/
structure Decision where
  project_id : Int
  decision : String
  allocated_budget : Rat
  priority_rank : Int
deriving DecidableEq

/-- Total budget allocated to APPROVED decisions, as computed at the top of
`approve_project` (`governance_agent.py` lines 211-213). -/
def sum_allocated (ds : List Decision) : Rat :=
  ((ds.filter (fun d => d.decision == "APPROVED")).map (fun d => d.allocated_budget)).sum

/-- `approve_project` (`governance_agent.py` lines 184-254): look the
project up among the candidates; recompute the allocated total from the
current decisions; refuse (returning an error string, modelled as `none`,
and inserting nothing) when the new allocation would exceed the budget;
otherwise insert an APPROVED decision whose allocated budget equals the
project's estimated cost. -/
def approve_project (candidates : List CandRow) (decisions : List Decision)
    (budget : Rat) (pid : Int) (rank : Int) : Option (List Decision) :=
  match candidates.find? (fun c => c.project_id == pid) with
  | none => none
  | some project =>
    let allocated := sum_allocated decisions
    if allocated + project.estimated_cost > budget then none
    else some (decisions ++
      [{ project_id := pid, decision := "APPROVED",
         allocated_budget := project.estimated_cost, priority_rank := rank }])

/-! ## Resource calendar (`context.py` lines 209-228) -/

/-- A row of `resource_calendar`. The schema declares
`UNIQUE(resource_type, week_number, year)`. -/
structure CalEntry where
  resource_type : String
  week_number : Int
  year : Int
  capacity : Int
  allocated : Int
deriving DecidableEq

/-- The WHERE clause `resource_type = ? AND week_number = ? AND year = 2025`
shared by `get_available_capacity` and `allocate_resource`. -/
def calMatch (rtype : String) (week : Int) (e : CalEntry) : Bool :=
  e.resource_type == rtype && e.week_number == week && e.year == 2025

/-- `get_available_capacity` (`context.py` lines 209-216): `capacity -
allocated` of the matching row, or 0 when no row matches. -/
def get_available_capacity (cal : List CalEntry) (rtype : String) (week : Int) : Int :=
  match cal.find? (calMatch rtype week) with
  | some e => e.capacity - e.allocated
  | none => 0

/-- `allocate_resource` (`context.py` lines 218-228): when the available
capacity covers the requested units, increment `allocated` on the matching
row(s) and return success; otherwise leave the calendar unchanged and
return failure. -/
def allocate_resource (cal : List CalEntry) (rtype : String) (week : Int) (units : Int) :
    List CalEntry × Bool :=
  if get_available_capacity cal rtype week ≥ units then
    (cal.map (fun e =>
      if calMatch rtype week e then { e with allocated := e.allocated + units } else e), true)
  else (cal, false)

/-- Apply a sequence of allocation requests (resource type, week, units). -/
def applyRequests (cal : List CalEntry) (reqs : List (String × Int × Int)) : List CalEntry :=
  reqs.foldl (fun c q => (allocate_resource c q.1 q.2.1 q.2.2).1) cal

/-- Calendar invariant: every row has `allocated ≤ capacity`. -/
def validCal (cal : List CalEntry) : Prop :=
  ∀ e ∈ cal, e.allocated ≤ e.capacity

/-- Two calendar rows with the same (resource type, week, year) key. -/
def sameKey (a b : CalEntry) : Prop :=
  a.resource_type = b.resource_type ∧ a.week_number = b.week_number ∧ a.year = b.year

/-- The schema's UNIQUE(resource_type, week_number, year) constraint. -/
def keysNodup (cal : List CalEntry) : Prop :=
  cal.Pairwise (fun a b => ¬ sameKey a b)

instance (a b : CalEntry) : Decidable (sameKey a b) := by
  unfold sameKey
  infer_instance

instance (cal : List CalEntry) : Decidable (keysNodup cal) := by
  unfold keysNodup
  infer_instance

instance (cal : List CalEntry) : Decidable (validCal cal) := by
  unfold validCal
  infer_instance

/-- No 2025 calendar row exists for this resource type (an unknown crew
type, or a calendar seeded for another year). -/
def noRow (rtype : String) (cal : List CalEntry) : Prop :=
  ∀ e ∈ cal, ¬(e.resource_type = rtype ∧ e.year = 2025)

instance (rtype : String) (cal : List CalEntry) : Decidable (noRow rtype cal) := by
  unfold noRow
  infer_instance

/-! ## Weather service (`mcp_servers.py`) -/

/-- The forecast payload returned by the mock weather MCP server. -/
structure Forecast where
  adverse_days : Int
  adverse_weather_weeks : List Int
  weather_risk : String
  recommendation : String
deriving DecidableEq

/-- `WeatherServiceMCPServer.call_tool("get_forecast_for_weeks", ...)`
(`mcp_servers.py` lines 18-51): weeks 3-4 contribute 5 adverse days, weeks
8-9 contribute 2, when they intersect the queried window. -/
def get_forecast_for_weeks (start_week end_week : Int) : Forecast :=
  let hit1 : Bool := (start_week ≤ 4 && 4 ≤ end_week) || (3 ≤ start_week && start_week ≤ 4)
  let weeks1 := if hit1 then intRange (max 3 start_week) (min 5 (end_week + 1)) else []
  let days1 : Int := if hit1 then 5 else 0
  let hit2 : Bool := (start_week ≤ 9 && 9 ≤ end_week) || (8 ≤ start_week && start_week ≤ 9)
  let weeks2 := if hit2 then intRange (max 8 start_week) (min 10 (end_week + 1)) else []
  let days2 : Int := if hit2 then 2 else 0
  let adverse := days1 + days2
  { adverse_days := adverse
    adverse_weather_weeks := weeks1 ++ weeks2
    weather_risk := if adverse > 3 then "high" else if adverse > 0 then "medium" else "low"
    recommendation :=
      if adverse > 2 then "Consider rescheduling outdoor work"
      else if adverse > 0 then "Monitor weather, minor risk"
      else "Weather looks favorable" }

/-- `WeatherServiceMCPServer.is_outdoor_project` (`mcp_servers.py` lines
55-60). -/
def is_outdoor_project (category crew_type : String) : Bool :=
  ["Infrastructure", "Water", "Construction"].contains category ||
  ["construction_crew", "water_crew", "general_crew"].contains crew_type

/-- The scheduler's weather collaborator: `none` models a raised exception
or timeout in the `mcp_client.call_tool` request. -/
abbrev Oracle := Int → Int → Option Forecast

/-- The (never-failing) mock weather oracle of the repository. -/
def mock_oracle : Oracle := fun s e => some (get_forecast_for_weeks s e)

/-- An oracle whose every call fails. -/
def failing_oracle : Oracle := fun _ _ => none

/-- An oracle that always reports clear weather. -/
def clear_oracle : Oracle :=
  fun _ _ => some { adverse_days := 0, adverse_weather_weeks := [],
                    weather_risk := "low", recommendation := "Weather looks favorable" }

/-- Whether a forecast result lets the window through: a failed call is
fail-open (`except: pass`, `scheduling_agent.py` lines 195-197), and a
successful forecast passes iff it has at most 2 adverse days (line 187). -/
def weatherPass : Option Forecast → Bool
  | none => true
  | some f => decide (f.adverse_days ≤ 2)

/-! ## Greedy scheduler (`scheduling_agent.py` lines 103-281) -/

/-- An approved project as returned by `get_approved_projects`
(`context.py` lines 168-178; the title is presentation-only). -/
structure Project where
  project_id : Int
  priority_rank : Int
  estimated_weeks : Int
  required_crew_type : String
  crew_size : Int
deriving DecidableEq

/-- A row of `schedule_tasks` as inserted by `insert_schedule_task`. -/
structure ScheduleTask where
  project_id : Int
  start_week : Int
  end_week : Int
  resource_type : String
  crew_assigned : Int
deriving DecidableEq

/-- Scheduler state: the resource calendar plus the outputs accumulated so
far (persisted tasks and infeasible projects). -/
structure SchedState where
  cal : List CalEntry
  tasks : List ScheduleTask
  infeasible : List Project
deriving DecidableEq

/-- `a.priority_rank ≤ b.priority_rank`: the ascending sort key of
`sorted(projects, key=lambda x: x["priority_rank"])`. -/
def rankLe (a b : Project) : Bool := decide (a.priority_rank ≤ b.priority_rank)

/-- The project category looked up for weather checks (`scheduling_agent.py`
lines 136-149): candidate by project id, then its issue's category, with
empty-string defaults. (The Python dicts are keyed by primary keys, so
first- vs last-match lookup is immaterial.) -/
def categoryOf (candidates : List CandRow) (issues : List IssueRow) (pid : Int) : String :=
  match candidates.find? (fun c => c.project_id == pid) with
  | none => ""
  | some c =>
    match issues.find? (fun i => i.issue_id == c.issue_id) with
    | none => ""
    | some i => i.category

/-- Feasibility of the window starting at `s` (`scheduling_agent.py` lines
156-197): every week of the window is within the horizon and has available
capacity for the crew, and for outdoor work the weather check passes
(fail-open on oracle failure). -/
def windowFeasible (cal : List CalEntry) (rtype : String) (crew horizon duration : Int)
    (outdoor : Bool) (oracle : Oracle) (s : Int) : Bool :=
  ((intRange s (s + duration)).all
    (fun w => decide (w ≤ horizon) && decide (get_available_capacity cal rtype w ≥ crew))) &&
  (!outdoor || weatherPass (oracle s (s + duration - 1)))

/-- The scan of candidate start weeks `1 .. horizon - duration + 1` in
increasing order (`for start_week in range(1, horizon - duration + 2)`),
returning the first feasible window's start (earliest-fit). -/
def findStartFor (candidates : List CandRow) (issues : List IssueRow) (horizon : Int)
    (oracle : Oracle) (cal : List CalEntry) (p : Project) : Option Int :=
  (intRange 1 (horizon - p.estimated_weeks + 2)).find?
    (windowFeasible cal p.required_crew_type p.crew_size horizon p.estimated_weeks
      (is_outdoor_project (categoryOf candidates issues p.project_id) p.required_crew_type)
      oracle)

/-- Committing a window: `allocate_resource` for every week of the window,
ignoring the returned flag, as the source does. -/
def commitWindow (cal : List CalEntry) (p : Project) (s : Int) : List CalEntry :=
  (intRange s (s + p.estimated_weeks)).foldl
    (fun c w => (allocate_resource c p.required_crew_type w p.crew_size).1) cal

/-- The task row persisted by `insert_schedule_task`, with
`end_week = start_week + duration - 1`. -/
def mkTask (p : Project) (s : Int) : ScheduleTask :=
  { project_id := p.project_id, start_week := s, end_week := s + p.estimated_weeks - 1,
    resource_type := p.required_crew_type, crew_assigned := p.crew_size }

/-- Process one approved project (`scheduling_agent.py` lines 139-241): scan
start weeks in increasing order; commit the first feasible window by
allocating every week and persisting a task; otherwise record the project
as infeasible. -/
def scheduleOne (candidates : List CandRow) (issues : List IssueRow) (horizon : Int)
    (oracle : Oracle) (st : SchedState) (p : Project) : SchedState :=
  match findStartFor candidates issues horizon oracle st.cal p with
  | some s =>
    { cal := commitWindow st.cal p s
      tasks := st.tasks ++ [mkTask p s]
      infeasible := st.infeasible }
  | none => { st with infeasible := st.infeasible ++ [p] }

/-- `run_greedy_scheduler` (`scheduling_agent.py` lines 103-281): sort the
approved projects by priority rank (stably, like Python's `sorted`) and
place each in turn, threading the calendar state. -/
def run_greedy_scheduler (projects : List Project) (candidates : List CandRow)
    (issues : List IssueRow) (horizon : Int) (oracle : Oracle) (cal : List CalEntry) :
    SchedState :=
  (stableSort rankLe projects).foldl (scheduleOne candidates issues horizon oracle)
    { cal := cal, tasks := [], infeasible := [] }

/-! ## Consistency validator (`validation.py`) -/

/-- Structured counterpart of the validator's finding messages. -/
inductive Finding where
  | orphaned (project_id : Int)
  | invalidRange (project_id start_week end_week : Int)
  | durationMismatch (project_id actual estimated : Int)
  | resourceViolation (project_id week needed available : Int)
deriving DecidableEq

/-- The per-task checks of `validate_schedule_feasibility` (`validation.py`
lines 71-113): orphaned-task check, week-range check, duration check, and
per-week capacity check. (Week columns are NOT NULL in the schema, so the
missing-week branch of the source is unreachable here.) -/
def checkTask (projects : List Project) (cal : List CalEntry) (t : ScheduleTask) :
    List Finding :=
  match projects.find? (fun p => p.project_id == t.project_id) with
  | none => [Finding.orphaned t.project_id]
  | some p =>
    (if t.start_week < 1 || t.end_week < t.start_week then
      [Finding.invalidRange t.project_id t.start_week t.end_week] else []) ++
    (if (t.end_week - t.start_week + 1) ≠ p.estimated_weeks then
      [Finding.durationMismatch t.project_id (t.end_week - t.start_week + 1) p.estimated_weeks]
     else []) ++
    ((intRange t.start_week (t.end_week + 1)).filterMap (fun w =>
      if get_available_capacity cal t.resource_type w < t.crew_assigned then
        some (Finding.resourceViolation t.project_id w t.crew_assigned
          (get_available_capacity cal t.resource_type w))
      else none))

/-- `validate_schedule_feasibility` (`validation.py` lines 57-114): the
findings of every task, in task order. -/
def validate_schedule_feasibility (tasks : List ScheduleTask) (projects : List Project)
    (cal : List CalEntry) : List Finding :=
  tasks.foldl (fun errs t => errs ++ checkTask projects cal t) []

/-! ## Concrete instances used by the scenario claims -/

/-- Issue 1 of the scenarios: OPEN, carries a legal mandate. -/
def issueWater : IssueRow :=
  { issue_id := 1, title := "Major Water Pipeline Rupture", category := "Water",
    status := "OPEN",
    signal := some { population_affected := some 450000, complaint_count := some 1200,
                     safety_risk := some 1, legal_mandate := some 1,
                     estimated_cost := some 45000000, urgency_days := some 7 } }

/-- Issue 2 of the scenarios: OPEN, no legal mandate. -/
def issueHealth : IssueRow :=
  { issue_id := 2, title := "Hospital Power Backup Failure", category := "Health",
    status := "OPEN",
    signal := some { population_affected := some 180000, complaint_count := some 300,
                     safety_risk := some 1, legal_mandate := some 0,
                     estimated_cost := some 12000000, urgency_days := some 14 } }

/-- The $45,000,000 mandate candidate of the C3 scenario (value density
4/45 risk points per million). -/
def candMandate : CandRow :=
  { project_id := 1, issue_id := 1, estimated_cost := 45000000, estimated_weeks := 4,
    required_crew_type := "water_crew", crew_size := 2, risk_score := 4 }

/-- The $60,000,000 non-mandate candidate of the C3 scenario, with the
higher value density 6/60. -/
def candDense : CandRow :=
  { project_id := 2, issue_id := 2, estimated_cost := 60000000, estimated_weeks := 8,
    required_crew_type := "electrical_crew", crew_size := 3, risk_score := 6 }

/-- Equal-cost pair for C9: the low-risk candidate whose issue (1) carries
the legal mandate. -/
def ceLow : CandRow :=
  { project_id := 1, issue_id := 1, estimated_cost := 10000000, estimated_weeks := 4,
    required_crew_type := "water_crew", crew_size := 2, risk_score := 3 }

/-- Equal-cost pair for C9: the high-risk candidate whose issue (2) has no
mandate. -/
def ceHigh : CandRow :=
  { project_id := 2, issue_id := 2, estimated_cost := 10000000, estimated_weeks := 4,
    required_crew_type := "water_crew", crew_size := 2, risk_score := 8 }

/-- First approved project of the C6 scheduling scenario: crew size 2 for
2 weeks of an indoor crew type with weekly capacity 3. -/
def scenProjectA : Project :=
  { project_id := 1, priority_rank := 1, estimated_weeks := 2,
    required_crew_type := "electrical_crew", crew_size := 2 }

/-- Second approved project of the C6 scheduling scenario. -/
def scenProjectB : Project :=
  { project_id := 2, priority_rank := 2, estimated_weeks := 2,
    required_crew_type := "electrical_crew", crew_size := 2 }

/-- Candidate rows backing the C6 scenario projects. -/
def scenCands : List CandRow :=
  [{ project_id := 1, issue_id := 1, estimated_cost := 2000000, estimated_weeks := 2,
     required_crew_type := "electrical_crew", crew_size := 2, risk_score := 4 },
   { project_id := 2, issue_id := 2, estimated_cost := 2000000, estimated_weeks := 2,
     required_crew_type := "electrical_crew", crew_size := 2, risk_score := 4 }]

/-- Issue rows backing the C6 scenario (category Health: indoor work). -/
def scenIssues : List IssueRow :=
  [{ issue_id := 1, title := "indoor issue one", category := "Health", status := "OPEN",
     signal := some emptySignal },
   { issue_id := 2, title := "indoor issue two", category := "Health", status := "OPEN",
     signal := some emptySignal }]

/-- A 12-week calendar with one crew type of weekly capacity 3. -/
def scenCalendar : List CalEntry :=
  (intRange 1 13).map (fun w =>
    { resource_type := "electrical_crew", week_number := w, year := 2025,
      capacity := 3, allocated := 0 })

/-! ## Generic lemmas: the stable sort -/

theorem insertStable_perm {α : Type} (le : α → α → Bool) (c : α) (l : List α) :
    (insertStable le c l).Perm (c :: l) := by
  induction l with
  | nil => simp [insertStable]
  | cons x xs ih =>
    simp only [insertStable]
    split
    · exact List.Perm.refl _
    · exact (ih.cons x).trans (List.Perm.swap c x xs)

theorem stableSort_perm {α : Type} (le : α → α → Bool) (l : List α) :
    (stableSort le l).Perm l := by
  induction l with
  | nil => simp [stableSort]
  | cons c cs ih => exact (insertStable_perm le c (stableSort le cs)).trans (ih.cons c)

theorem mem_insertStable {α : Type} {le : α → α → Bool} {c a : α} {l : List α} :
    a ∈ insertStable le c l ↔ a = c ∨ a ∈ l := by
  rw [(insertStable_perm le c l).mem_iff, List.mem_cons]

theorem mem_stableSort {α : Type} {le : α → α → Bool} {a : α} {l : List α} :
    a ∈ stableSort le l ↔ a ∈ l :=
  (stableSort_perm le l).mem_iff

theorem pairwise_insertStable {α : Type} {le : α → α → Bool}
    (htrans : ∀ a b c, le a b = true → le b c = true → le a c = true)
    (htot : ∀ a b, le a b = true ∨ le b a = true)
    (c : α) {l : List α} (h : l.Pairwise (fun a b => le a b = true)) :
    (insertStable le c l).Pairwise (fun a b => le a b = true) := by
  induction l with
  | nil => simp [insertStable]
  | cons x xs ih =>
    rcases List.pairwise_cons.mp h with ⟨hx, hxs⟩
    simp only [insertStable]
    split
    case isTrue hcx =>
      refine List.pairwise_cons.mpr ⟨?_, h⟩
      intro y hy
      rcases List.mem_cons.mp hy with rfl | hy
      · exact hcx
      · exact htrans _ _ _ hcx (hx y hy)
    case isFalse hcx =>
      refine List.pairwise_cons.mpr ⟨?_, ih hxs⟩
      intro y hy
      rcases mem_insertStable.mp hy with rfl | hy
      · rcases htot x y with h1 | h1
        · exact h1
        · exact absurd h1 hcx
      · exact hx y hy

theorem pairwise_stableSort {α : Type} {le : α → α → Bool}
    (htrans : ∀ a b c, le a b = true → le b c = true → le a c = true)
    (htot : ∀ a b, le a b = true ∨ le b a = true) (l : List α) :
    (stableSort le l).Pairwise (fun a b => le a b = true) := by
  induction l with
  | nil => simp [stableSort]
  | cons c cs ih => exact pairwise_insertStable htrans htot c ih

/-- In a `Pairwise R` list, if `¬ R b a` then `a` occurs strictly before
`b`: the list splits as `l1 ++ a :: l2` with `b ∈ l2`. -/
theorem mem_split_of_pairwise {α : Type} {R : α → α → Prop} :
    ∀ {s : List α} {a b : α}, s.Pairwise R → a ∈ s → b ∈ s → ¬ R b a → a ≠ b →
      ∃ l1 l2, s = l1 ++ a :: l2 ∧ b ∈ l2 := by
  intro s
  induction s with
  | nil => intro a b _ ha; cases ha
  | cons x xs ih =>
    intro a b hp ha hb hnR hab
    rcases List.pairwise_cons.mp hp with ⟨hx, hxs⟩
    rcases List.mem_cons.mp ha with ha1 | ha2
    · subst ha1
      have hb' : b ∈ xs := by
        rcases List.mem_cons.mp hb with hb1 | hb2
        · exact absurd hb1.symm hab
        · exact hb2
      exact ⟨[], xs, rfl, hb'⟩
    · have hbx : b ∈ xs := by
        rcases List.mem_cons.mp hb with hb1 | hb2
        · exfalso
          apply hnR
          rw [hb1]
          exact hx a ha2
        · exact hb2
      obtain ⟨l1, l2, hsplit, hbl2⟩ := ih hxs ha2 hbx hnR hab
      exact ⟨x :: l1, l2, by rw [hsplit]; rfl, hbl2⟩

/-! ## Generic lemmas: `intRange` -/

theorem intRange_eq_nil {a b : Int} (h : b ≤ a) : intRange a b = [] := by
  simp [intRange, intRangeGo, Int.toNat_eq_zero.mpr (by omega : b - a ≤ 0)]

theorem intRange_cons {a b : Int} (h : a < b) : intRange a b = a :: intRange (a + 1) b := by
  have h1 : (b - a).toNat = (b - (a + 1)).toNat + 1 := by omega
  simp only [intRange, h1, intRangeGo]

theorem mem_intRangeGo : ∀ (n : Nat) (s w : Int), w ∈ intRangeGo s n ↔ s ≤ w ∧ w < s + n := by
  intro n
  induction n with
  | zero =>
    intro s w
    simp only [intRangeGo, List.not_mem_nil, false_iff]
    omega
  | succ n ih =>
    intro s w
    simp only [intRangeGo, List.mem_cons, ih (s + 1)]
    omega

theorem mem_intRange {a b w : Int} : w ∈ intRange a b ↔ a ≤ w ∧ w < b := by
  rw [intRange, mem_intRangeGo]
  omega

/-! ## Lemmas about the greedy pass -/

theorem greedy_take_sum (l : List Cand) (r : Rat) :
    ((greedy_take l r).1.map (fun c => c.estimated_cost)).sum + (greedy_take l r).2 = r := by
  induction l generalizing r with
  | nil => simp [greedy_take]
  | cons c cs ih =>
    simp only [greedy_take]
    split
    · have := ih (r - c.estimated_cost)
      simp only [List.map_cons, List.sum_cons]
      linarith
    · exact ih r

theorem greedy_take_nonneg (l : List Cand) (r : Rat) (h : 0 ≤ r) :
    0 ≤ (greedy_take l r).2 := by
  induction l generalizing r with
  | nil => simpa [greedy_take] using h
  | cons c cs ih =>
    simp only [greedy_take]
    split
    case isTrue hc => exact ih (r - c.estimated_cost) (by linarith)
    case isFalse hc => exact ih r h

theorem greedy_take_subset {l : List Cand} {r : Rat} {x : Cand}
    (hx : x ∈ (greedy_take l r).1) : x ∈ l := by
  induction l generalizing r with
  | nil => simp [greedy_take] at hx
  | cons c cs ih =>
    simp only [greedy_take] at hx
    split at hx
    · rcases List.mem_cons.mp hx with rfl | hx
      · exact List.mem_cons_self _ _
      · exact List.mem_cons_of_mem _ (ih hx)
    · exact List.mem_cons_of_mem _ (ih hx)

theorem greedy_take_mem_cost {l : List Cand} {r : Rat} {x : Cand}
    (hc : ∀ c ∈ l, 0 ≤ c.estimated_cost) (hx : x ∈ (greedy_take l r).1) :
    x.estimated_cost ≤ r := by
  induction l generalizing r with
  | nil => simp [greedy_take] at hx
  | cons c cs ih =>
    simp only [greedy_take] at hx
    split at hx
    case isTrue hcr =>
      rcases List.mem_cons.mp hx with rfl | hx
      · exact hcr
      · have h0 : 0 ≤ c.estimated_cost := hc c (List.mem_cons_self _ _)
        have := ih (fun d hd => hc d (List.mem_cons_of_mem _ hd)) hx
        linarith
    case isFalse hcr => exact ih (fun d hd => hc d (List.mem_cons_of_mem _ hd)) hx

/-- If `a` occurs before `b` in the scanned list, costs are nonnegative,
`a` costs no more than `b`, and `b` gets accepted, then `a` is accepted
strictly earlier. -/
theorem greedy_take_before {a b : Cand} :
    ∀ (l1 l2 : List Cand) (r : Rat),
      (l1 ++ a :: l2).Nodup →
      (∀ c ∈ l1 ++ a :: l2, 0 ≤ c.estimated_cost) →
      b ∈ l2 → a.estimated_cost ≤ b.estimated_cost →
      b ∈ (greedy_take (l1 ++ a :: l2) r).1 →
      ∃ m1 m2, (greedy_take (l1 ++ a :: l2) r).1 = m1 ++ a :: m2 ∧ b ∈ m2 := by
  intro l1
  induction l1 with
  | nil =>
    intro l2 r hnd hc hb hab hsel
    simp only [List.nil_append] at hnd hc hsel ⊢
    by_cases hr : a.estimated_cost ≤ r
    · simp only [greedy_take, if_pos hr] at hsel ⊢
      have hba : b ≠ a := by
        intro h
        exact (List.nodup_cons.mp hnd).1 (h ▸ hb)
      have hbsel : b ∈ (greedy_take l2 (r - a.estimated_cost)).1 := by
        rcases List.mem_cons.mp hsel with h | h
        · exact absurd h hba
        · exact h
      exact ⟨[], _, rfl, hbsel⟩
    · simp only [greedy_take, if_neg hr] at hsel
      have := greedy_take_mem_cost (fun c hcl => hc c (List.mem_cons_of_mem _ hcl)) hsel
      linarith
  | cons x l1' ih =>
    intro l2 r hnd hc hb hab hsel
    simp only [List.cons_append] at hnd hc hsel ⊢
    rcases List.nodup_cons.mp hnd with ⟨hxnot, hnd'⟩
    by_cases hr : x.estimated_cost ≤ r
    · simp only [greedy_take, if_pos hr] at hsel ⊢
      have hbx : b ≠ x := by
        intro h
        exact hxnot (h ▸ List.mem_append_right _ (List.mem_cons_of_mem _ hb))
      have hbsel : b ∈ (greedy_take (l1' ++ a :: l2) (r - x.estimated_cost)).1 := by
        rcases List.mem_cons.mp hsel with h | h
        · exact absurd h hbx
        · exact h
      obtain ⟨m1, m2, heq, hbm⟩ :=
        ih l2 (r - x.estimated_cost) hnd' (fun c hcl => hc c (List.mem_cons_of_mem _ hcl))
          hb hab hbsel
      exact ⟨x :: m1, m2, by rw [heq]; rfl, hbm⟩
    · simp only [greedy_take, if_neg hr] at hsel ⊢
      exact ih l2 r hnd' (fun c hcl => hc c (List.mem_cons_of_mem _ hcl)) hb hab hsel

/-! ## Candidate formation: characterization -/

theorem mem_formCandidates {w : RiskWeights} {t : RiskThresholds}
    {m : List (String × String)} :
    ∀ {issues : List IssueRow} {c : ProposedCandidate},
      (∀ j ∈ issues, (compute_risk_score w t (signalOf j)).isSome) →
      (c ∈ (formCandidates w t m issues).1 ↔
        ∃ j ∈ issues, ∃ sc, compute_risk_score w t (signalOf j) = some sc ∧
          sc ≥ t.high_risk_score ∧ c = mkCandidateShim m j sc) := by
  intro issues
  induction issues with
  | nil =>
    intro c _
    simp [formCandidates]
  | cons i rest ih =>
    intro c hall
    have hrest : ∀ j ∈ rest, (compute_risk_score w t (signalOf j)).isSome :=
      fun j hj => hall j (List.mem_cons_of_mem _ hj)
    cases hsc : compute_risk_score w t (signalOf i) with
    | none =>
      exfalso
      have hsome := hall i (List.mem_cons_self _ _)
      rw [hsc] at hsome
      simp at hsome
    | some sc =>
      simp only [formCandidates, hsc]
      by_cases hge : sc ≥ t.high_risk_score
      · rw [if_pos hge, List.mem_cons, ih hrest]
        constructor
        · rintro (rfl | ⟨j, hj, sc', hsc', hge', rfl⟩)
          · exact ⟨i, List.mem_cons_self _ _, sc, hsc, hge, rfl⟩
          · exact ⟨j, List.mem_cons_of_mem _ hj, sc', hsc', hge', rfl⟩
        · rintro ⟨j, hj, sc', hsc', hge', rfl⟩
          rcases List.mem_cons.mp hj with rfl | hj
          · rw [hsc] at hsc'
            cases hsc'
            left
            rfl
          · right
            exact ⟨j, hj, sc', hsc', hge', rfl⟩
      · rw [if_neg hge, ih hrest]
        constructor
        · rintro ⟨j, hj, h⟩
          exact ⟨j, List.mem_cons_of_mem _ hj, h⟩
        · rintro ⟨j, hj, sc', hsc', hge', rfl⟩
          rcases List.mem_cons.mp hj with rfl | hj
          · rw [hsc] at hsc'
            cases hsc'
            exact absurd hge' hge
          · exact ⟨j, hj, sc', hsc', hge', rfl⟩

theorem formCandidates_completes {w : RiskWeights} {t : RiskThresholds}
    {m : List (String × String)} :
    ∀ {issues : List IssueRow},
      (∀ j ∈ issues, (compute_risk_score w t (signalOf j)).isSome) →
      (formCandidates w t m issues).2 = true := by
  intro issues
  induction issues with
  | nil => intro _; rfl
  | cons i rest ih =>
    intro hall
    cases hsc : compute_risk_score w t (signalOf i) with
    | none =>
      exfalso
      have hsome := hall i (List.mem_cons_self _ _)
      rw [hsc] at hsome
      simp at hsome
    | some sc =>
      simp only [formCandidates, hsc]
      split
      · exact ih (fun j hj => hall j (List.mem_cons_of_mem _ hj))
      · exact ih (fun j hj => hall j (List.mem_cons_of_mem _ hj))

/-! ## Claim C4 -/

/-- C4 (code bug): when both numeric fields are present,
`compute_risk_score` is the weighted Iverson-bracket sum of the claim,
and a missing (NULL) boolean flag does contribute false, exactly like the
value 0; the default weights and thresholds are (3, 3, 1, 1) and
(100000, 75). But the claim's "rather than raising an error" is false of
the numeric fields: a NULL `population_affected` or `complaint_count`
makes the source compare `None >= int` and raise TypeError (`none` here),
as on the all-NULL signal row of an issue without an `issue_signals`
row — the `.get(..., 0)` default shows the intent the spec states, and
the code misses it for stored NULLs. -/
theorem c4_risk_score_formula :
    (∀ (w : RiskWeights) (t : RiskThresholds) (s : Signal) (pop cpl : Int),
      s.population_affected = some pop → s.complaint_count = some cpl →
      compute_risk_score w t s =
        some (w.safety_risk * b2r (truthy s.safety_risk) +
          w.legal_mandate * b2r (truthy s.legal_mandate) +
          w.population_impact * b2r (decide (pop ≥ t.high_population)) +
          w.complaint_volume * b2r (decide (cpl ≥ t.high_complaints)))) ∧
    (∀ (w : RiskWeights) (t : RiskThresholds) (s : Signal),
      compute_risk_score w t { s with safety_risk := none } =
        compute_risk_score w t { s with safety_risk := some 0 } ∧
      compute_risk_score w t { s with legal_mandate := none } =
        compute_risk_score w t { s with legal_mandate := some 0 }) ∧
    RISK_WEIGHTS =
      { safety_risk := 3, legal_mandate := 3, population_impact := 1,
        complaint_volume := 1 } ∧
    RISK_THRESHOLDS =
      { high_population := 100000, high_complaints := 75, high_risk_score := 3 } ∧
    (∀ (w : RiskWeights) (t : RiskThresholds) (s : Signal),
      s.population_affected = none → compute_risk_score w t s = none) ∧
    (∀ (w : RiskWeights) (t : RiskThresholds) (s : Signal),
      s.complaint_count = none → compute_risk_score w t s = none) ∧
    compute_risk_score RISK_WEIGHTS RISK_THRESHOLDS emptySignal = none := by
  refine ⟨?_, ?_, rfl, rfl, ?_, ?_, rfl⟩
  · intro w t s pop cpl hpop hcpl
    simp only [compute_risk_score, hpop, hcpl, b2r, decide_eq_true_eq]
    split_ifs <;> ring_nf
  · intro w t s
    exact ⟨by simp [compute_risk_score, truthy], by simp [compute_risk_score, truthy]⟩
  · intro w t s hpop
    simp [compute_risk_score, hpop]
  · intro w t s hcpl
    cases hpop : s.population_affected <;> simp [compute_risk_score, hpop, hcpl]

/-- Concrete instance of C4: the fully-populated water-pipeline signal
gets the formula score, and the all-NULL signal row raises (is `none`). -/
theorem c4_risk_score_formula_witness :
    compute_risk_score RISK_WEIGHTS RISK_THRESHOLDS
        { population_affected := some 450000, complaint_count := some 1200,
          safety_risk := some 1, legal_mandate := some 1,
          estimated_cost := some 45000000, urgency_days := some 7 } =
      some (RISK_WEIGHTS.safety_risk * b2r (truthy (some 1)) +
        RISK_WEIGHTS.legal_mandate * b2r (truthy (some 1)) +
        RISK_WEIGHTS.population_impact *
          b2r (decide ((450000 : Int) ≥ RISK_THRESHOLDS.high_population)) +
        RISK_WEIGHTS.complaint_volume *
          b2r (decide ((1200 : Int) ≥ RISK_THRESHOLDS.high_complaints))) ∧
    compute_risk_score RISK_WEIGHTS RISK_THRESHOLDS emptySignal = none :=
  ⟨c4_risk_score_formula.1 RISK_WEIGHTS RISK_THRESHOLDS
      { population_affected := some 450000, complaint_count := some 1200,
        safety_risk := some 1, legal_mandate := some 1,
        estimated_cost := some 45000000, urgency_days := some 7 } 450000 1200 rfl rfl,
   c4_risk_score_formula.2.2.2.2.1 RISK_WEIGHTS RISK_THRESHOLDS emptySignal rfl⟩

/-! ## Claim C5 -/

/-- C5: the formation loop (executable code in the local agents shim,
`src/agents/__init__.py` lines 89-124) creates a candidate for an open
issue exactly when its computed risk score reaches the configured
high-risk threshold. Stated for runs in which scoring succeeds on every
open issue (numeric signal fields present — otherwise the stage aborts
with C4's TypeError before reaching later issues): with unique issue ids,
the loop completes and a candidate referencing issue `i` exists iff `i`'s
score is at least the threshold. -/
theorem c5_threshold_law :
    ∀ (w : RiskWeights) (t : RiskThresholds) (m : List (String × String))
      (issues : List IssueRow) (i : IssueRow) (score : Rat),
      (∀ j ∈ issues, (compute_risk_score w t (signalOf j)).isSome) →
      (issues.map (fun j => j.issue_id)).Nodup →
      i ∈ issues →
      compute_risk_score w t (signalOf i) = some score →
      (formCandidates w t m issues).2 = true ∧
      ((∃ c ∈ (formCandidates w t m issues).1, c.issue_id = i.issue_id) ↔
        score ≥ t.high_risk_score) := by
  intro w t m issues i score hall hnd hi hsc
  refine ⟨formCandidates_completes hall, ?_, ?_⟩
  · rintro ⟨c, hc, hcid⟩
    obtain ⟨j, hj, sc', hsc', hge', rfl⟩ := (mem_formCandidates hall).mp hc
    have hji : j.issue_id = i.issue_id := hcid
    have hjeq : j = i := List.inj_on_of_nodup_map hnd hj hi hji
    subst hjeq
    rw [hsc] at hsc'
    cases hsc'
    exact hge'
  · intro hge
    exact ⟨mkCandidateShim m i score,
      (mem_formCandidates hall).mpr ⟨i, hi, score, hsc, hge, rfl⟩, rfl⟩

/-- Concrete instance of C5: the seeded water-pipeline issue (450000
affected, 1200 complaints, both flags set) scores 8 and the loop creates
a candidate for it. -/
theorem c5_threshold_law_witness :
    (formCandidates RISK_WEIGHTS RISK_THRESHOLDS CREW_MAPPING [issueWater]).2 = true ∧
    ((∃ c ∈ (formCandidates RISK_WEIGHTS RISK_THRESHOLDS CREW_MAPPING [issueWater]).1,
        c.issue_id = issueWater.issue_id) ↔
      (8 : Rat) ≥ RISK_THRESHOLDS.high_risk_score) :=
  c5_threshold_law RISK_WEIGHTS RISK_THRESHOLDS CREW_MAPPING [issueWater] issueWater 8
    (by decide) (by decide) (List.mem_cons_self _ _)
    (by norm_num [compute_risk_score, signalOf, issueWater, truthy, RISK_WEIGHTS,
      RISK_THRESHOLDS])

/-! ## Knapsack structure lemmas -/

theorem knapsack_phase1_true (enriched : List Cand) (budget : Rat) :
    knapsack_phase1 enriched budget true = greedy_take (knapsack_mandates enriched) budget := rfl

theorem knapsack_selected_eq (enriched : List Cand) (budget : Rat) :
    knapsack_selected enriched budget true =
      ((greedy_take (knapsack_mandates enriched) budget).1 ++
        (greedy_take (stableSort densityLe (knapsack_remaining enriched
          (greedy_take (knapsack_mandates enriched) budget).1))
          (greedy_take (knapsack_mandates enriched) budget).2).1,
       (greedy_take (stableSort densityLe (knapsack_remaining enriched
          (greedy_take (knapsack_mandates enriched) budget).1))
          (greedy_take (knapsack_mandates enriched) budget).2).2) := rfl

theorem knapsack_selected_sum_le (enriched : List Cand) (budget : Rat) (mi : Bool)
    (hb : 0 ≤ budget) :
    ((knapsack_selected enriched budget mi).1.map (fun c => c.estimated_cost)).sum ≤ budget := by
  unfold knapsack_selected
  have h1 : ((knapsack_phase1 enriched budget mi).1.map (fun c => c.estimated_cost)).sum +
      (knapsack_phase1 enriched budget mi).2 = budget := by
    unfold knapsack_phase1
    split
    · exact greedy_take_sum _ _
    · simp
  have h2 : 0 ≤ (knapsack_phase1 enriched budget mi).2 := by
    unfold knapsack_phase1
    split
    · exact greedy_take_nonneg _ _ hb
    · exact hb
  have h3 := greedy_take_sum
    (stableSort densityLe (knapsack_remaining enriched (knapsack_phase1 enriched budget mi).1))
    (knapsack_phase1 enriched budget mi).2
  have h4 := greedy_take_nonneg
    (stableSort densityLe (knapsack_remaining enriched (knapsack_phase1 enriched budget mi).1))
    (knapsack_phase1 enriched budget mi).2 h2
  simp only [List.map_append, List.sum_append]
  linarith

/-! ## Claim C1 -/

/-- C1: the sum of the costs of the knapsack-selected candidates never
exceeds a nonnegative budget (both greedy phases only accept a candidate
whose cost is at most the remaining budget), and `approve_project` (i) can
only produce decision states whose APPROVED allocations sum to at most the
budget, and (ii) refuses, inserting nothing, whenever the already-allocated
total plus the project's estimated cost would exceed the budget. -/
theorem c1_budget_invariant :
    (∀ (candidates : List CandRow) (issues : List IssueRow) (budget : Rat) (mi : Bool),
      0 ≤ budget →
      ((run_knapsack_optimization candidates issues budget mi).selected.map
        (fun c => c.estimated_cost)).sum ≤ budget) ∧
    (∀ (candidates : List CandRow) (decisions : List Decision) (budget : Rat)
      (pid rank : Int) (d' : List Decision),
      approve_project candidates decisions budget pid rank = some d' →
      sum_allocated d' ≤ budget) ∧
    (∀ (candidates : List CandRow) (decisions : List Decision) (budget : Rat)
      (pid rank : Int) (project : CandRow),
      candidates.find? (fun c => c.project_id == pid) = some project →
      sum_allocated decisions + project.estimated_cost > budget →
      approve_project candidates decisions budget pid rank = none) := by
  refine ⟨?_, ?_, ?_⟩
  · intro candidates issues budget mi hb
    exact knapsack_selected_sum_le (knapsack_enrich issues candidates) budget mi hb
  · intro candidates decisions budget pid rank d' happ
    unfold approve_project at happ
    cases hf : candidates.find? (fun c => c.project_id == pid) with
    | none => rw [hf] at happ; cases happ
    | some project =>
      rw [hf] at happ
      simp only at happ
      split at happ
      · cases happ
      case isFalse hover =>
        rw [Option.some.injEq] at happ
        subst happ
        have hsum : sum_allocated (decisions ++
            [{ project_id := pid, decision := "APPROVED",
               allocated_budget := project.estimated_cost, priority_rank := rank }]) =
            sum_allocated decisions + project.estimated_cost := by
          unfold sum_allocated
          simp [List.filter_append]
        rw [hsum]
        linarith [not_lt.mp hover]
  · intro candidates decisions budget pid rank project hf hover
    unfold approve_project
    rw [hf]
    simp only
    rw [if_pos hover]

/-- Concrete instance of C1: the scenario selection stays within the
$75,000,000 budget; an approval that fits is recorded and keeps the sum
within budget; an approval that would overrun ($70M allocated + $10M cost
against $75M) is refused. -/
theorem c1_budget_invariant_witness :
    ((run_knapsack_optimization [candMandate, candDense] [issueWater, issueHealth]
        75000000 true).selected.map (fun c => c.estimated_cost)).sum ≤ 75000000 ∧
    sum_allocated
        [{ project_id := 1, decision := "APPROVED", allocated_budget := 10000000,
           priority_rank := 1 }] ≤ 75000000 ∧
    approve_project [ceLow]
        [{ project_id := 2, decision := "APPROVED", allocated_budget := 70000000,
           priority_rank := 1 }] 75000000 1 1 = none :=
  ⟨c1_budget_invariant.1 [candMandate, candDense] [issueWater, issueHealth] 75000000 true
      (by norm_num),
   c1_budget_invariant.2.1 [ceLow] [] 75000000 1 1
      [{ project_id := 1, decision := "APPROVED", allocated_budget := 10000000,
         priority_rank := 1 }]
      (by norm_num [approve_project, sum_allocated, ceLow, List.find?]),
   c1_budget_invariant.2.2 [ceLow]
      [{ project_id := 2, decision := "APPROVED", allocated_budget := 70000000,
         priority_rank := 1 }] 75000000 1 1 ceLow
      (by norm_num [ceLow, List.find?])
      (by norm_num [sum_allocated, ceLow])⟩

/-! ## Claim C3 -/

/-- C3: the selection is exactly the two-phase greedy described by the
spec — phase 1 takes the legal mandates in encounter order gated on
remaining budget, phase 2 ranks the not-yet-selected candidates by value
density descending (ties stable) and accepts each iff its cost fits — and
in the concrete scenario (budget $75M, a $45M mandate, a $60M non-mandate
of strictly higher value density) the mandate is selected and the denser
candidate is rejected. -/
theorem c3_two_phase_greedy :
    (∀ (enriched : List Cand) (budget : Rat),
      (enriched.map (fun c => c.project_id)).Nodup →
      knapsack_selected enriched budget true = knapsack_spec_selected enriched budget) ∧
    ((run_knapsack_optimization [candMandate, candDense] [issueWater, issueHealth]
        75000000 true).selected.map (fun c => c.project_id) = [1] ∧
     (run_knapsack_optimization [candMandate, candDense] [issueWater, issueHealth]
        75000000 true).rejected_ids = [2] ∧
     value_density (enrich [issueWater, issueHealth] candDense) >
       value_density (enrich [issueWater, issueHealth] candMandate)) := by
  constructor
  · intro enriched budget hnd
    rw [knapsack_selected_eq]
    unfold knapsack_spec_selected
    have hfil : knapsack_remaining enriched
        (greedy_take (knapsack_mandates enriched) budget).1 =
        enriched.filter (fun c =>
          !(decide (c ∈ (greedy_take (enriched.filter (fun d => truthy d.legal_mandate))
            budget).1))) := by
      unfold knapsack_remaining knapsack_mandates
      refine List.filter_congr ?_
      intro c hc
      apply congrArg
      rw [decide_eq_decide]
      constructor
      · intro hmem
        obtain ⟨m, hm, hmid⟩ := List.mem_map.mp hmem
        have hmenr : m ∈ enriched :=
          (List.mem_filter.mp (greedy_take_subset hm)).1
        have : m = c := List.inj_on_of_nodup_map hnd hmenr hc hmid
        exact this ▸ hm
      · intro hmem
        exact List.mem_map.mpr ⟨c, hmem, rfl⟩
    rw [hfil]
    rfl
  · norm_num [run_knapsack_optimization, knapsack_enrich, knapsack_selected, knapsack_phase1,
      knapsack_mandates, knapsack_remaining, enrich, candMandate, candDense, issueWater,
      issueHealth, truthy, greedy_take, stableSort, insertStable, densityLe, value_density,
      List.find?]

/-- Concrete instance of C3's universal part: on the scenario candidates
the source selection agrees with the spec's two-phase description. -/
theorem c3_two_phase_greedy_witness :
    knapsack_selected (knapsack_enrich [issueWater, issueHealth] [candMandate, candDense])
        75000000 true =
      knapsack_spec_selected
        (knapsack_enrich [issueWater, issueHealth] [candMandate, candDense]) 75000000 :=
  c3_two_phase_greedy.1 (knapsack_enrich [issueWater, issueHealth] [candMandate, candDense])
    75000000 (by decide)

/-! ## Claim C9 -/

theorem mem_knapsack_mandates {enriched : List Cand} {m : Cand} :
    m ∈ knapsack_mandates enriched ↔ m ∈ enriched ∧ truthy m.legal_mandate = true := by
  simp [knapsack_mandates, List.mem_filter]

theorem mem_knapsack_remaining {enriched sel1 : List Cand} {c : Cand} :
    c ∈ knapsack_remaining enriched sel1 ↔
      c ∈ enriched ∧ ¬(c.project_id ∈ sel1.map (fun x => x.project_id)) := by
  simp [knapsack_remaining, List.mem_filter]

/-- C9 counterexample: two candidates of equal estimated cost where the
higher-risk one receives a strictly worse (greater) priority rank, because
the lower-risk one is a legal mandate and is selected in phase 1. -/
theorem c9_counterexample :
    (enrich [issueWater, issueHealth] ceLow).estimated_cost =
      (enrich [issueWater, issueHealth] ceHigh).estimated_cost ∧
    (enrich [issueWater, issueHealth] ceHigh).risk_score >
      (enrich [issueWater, issueHealth] ceLow).risk_score ∧
    priority_rank_of
        (run_knapsack_optimization [ceLow, ceHigh] [issueWater, issueHealth] 75000000 true)
        ceHigh.project_id >
      priority_rank_of
        (run_knapsack_optimization [ceLow, ceHigh] [issueWater, issueHealth] 75000000 true)
        ceLow.project_id := by
  norm_num [priority_rank_of, run_knapsack_optimization, knapsack_enrich, knapsack_selected,
    knapsack_phase1, knapsack_mandates, knapsack_remaining, enrich, ceLow, ceHigh, issueWater,
    issueHealth, truthy, greedy_take, stableSort, insertStable, densityLe, value_density,
    List.find?, List.findIdx?]

/-- C9 amended: restricted to candidates that are not legal mandates (both
are ranked in the greedy phase), with the data-model constraints that all
costs are nonnegative, the pair's common cost is positive, and project ids
are unique: if the lower-risk candidate of an equal-cost pair is selected,
then the strictly higher-risk candidate is selected strictly earlier (so
its 1-based priority rank is equal or better, never later). -/
theorem c9_amended_greedy_ordering :
    ∀ (enriched : List Cand) (budget : Rat) (c1 c2 : Cand),
      (enriched.map (fun c => c.project_id)).Nodup →
      (∀ c ∈ enriched, 0 ≤ c.estimated_cost) →
      c1 ∈ enriched → c2 ∈ enriched →
      truthy c1.legal_mandate = false → truthy c2.legal_mandate = false →
      c1.estimated_cost = c2.estimated_cost → 0 < c1.estimated_cost →
      c2.risk_score < c1.risk_score →
      c2 ∈ (knapsack_selected enriched budget true).1 →
      ∃ m1 m2, (knapsack_selected enriched budget true).1 = m1 ++ c1 :: m2 ∧ c2 ∈ m2 := by
  intro enriched budget c1 c2 hnd hcost hc1e hc2e hml1 hml2 hceq hcpos hrisk hsel
  rw [knapsack_selected_eq] at hsel ⊢
  set p1 := greedy_take (knapsack_mandates enriched) budget with hp1def
  set rem := knapsack_remaining enriched p1.1 with hremdef
  set sorted := stableSort densityLe rem with hsorteddef
  have hsel1mand : ∀ m ∈ p1.1, truthy m.legal_mandate = true := by
    intro m hm
    exact (mem_knapsack_mandates.mp (greedy_take_subset hm)).2
  have hnotin : ∀ c ∈ enriched, truthy c.legal_mandate = false → c ∈ rem := by
    intro c hc hcf
    rw [hremdef, mem_knapsack_remaining]
    refine ⟨hc, ?_⟩
    intro hmem
    obtain ⟨m, hm, hmid⟩ := List.mem_map.mp hmem
    have hmenr : m ∈ enriched := (mem_knapsack_mandates.mp (greedy_take_subset hm)).1
    have hmc : m = c := List.inj_on_of_nodup_map hnd hmenr hc hmid
    have hmt := hsel1mand m hm
    rw [hmc, hcf] at hmt
    exact Bool.false_ne_true hmt
  have hc1rem : c1 ∈ rem := hnotin c1 hc1e hml1
  have hc2rem : c2 ∈ rem := hnotin c2 hc2e hml2
  have hc1s : c1 ∈ sorted := by
    rw [hsorteddef]
    exact mem_stableSort.mpr hc1rem
  have hc2s : c2 ∈ sorted := by
    rw [hsorteddef]
    exact mem_stableSort.mpr hc2rem
  have hc1ne2 : c1 ≠ c2 := by
    intro h
    rw [h] at hrisk
    exact lt_irrefl _ hrisk
  have hdens : value_density c2 < value_density c1 := by
    unfold value_density
    rw [hceq]
    have hq : (0 : Rat) < c2.estimated_cost / 1000000 := by
      have h0 : (0 : Rat) < c2.estimated_cost := hceq ▸ hcpos
      positivity
    rw [div_lt_div_iff₀ hq hq]
    exact mul_lt_mul_of_pos_right hrisk hq
  have htrans : ∀ a b c : Cand,
      densityLe a b = true → densityLe b c = true → densityLe a c = true := by
    intro a b c hab hbc
    simp only [densityLe, decide_eq_true_eq] at hab hbc ⊢
    exact le_trans hbc hab
  have htot : ∀ a b : Cand, densityLe a b = true ∨ densityLe b a = true := by
    intro a b
    simp only [densityLe, decide_eq_true_eq]
    exact le_total _ _
  have hpw : sorted.Pairwise (fun a b => densityLe a b = true) := by
    rw [hsorteddef]
    exact pairwise_stableSort htrans htot rem
  have hnR : ¬(densityLe c2 c1 = true) := by
    simp only [densityLe, decide_eq_true_eq]
    exact not_le.mpr hdens
  obtain ⟨l1, l2, hsplit, hbl2⟩ := mem_split_of_pairwise hpw hc1s hc2s hnR hc1ne2
  have hndrem : rem.Nodup := by
    have hsub : List.Sublist rem enriched := by
      rw [hremdef, knapsack_remaining]
      exact List.filter_sublist _
    exact (List.Nodup.sublist (hsub.map (fun c => c.project_id)) hnd).of_map
  have hndsorted : sorted.Nodup := by
    rw [hsorteddef]
    exact ((stableSort_perm densityLe rem).nodup_iff).mpr hndrem
  have hcosts : ∀ c ∈ sorted, 0 ≤ c.estimated_cost := by
    intro c hcs
    rw [hsorteddef] at hcs
    have hcr : c ∈ rem := mem_stableSort.mp hcs
    rw [hremdef, mem_knapsack_remaining] at hcr
    exact hcost c hcr.1
  have hc2p2 : c2 ∈ (greedy_take sorted p1.2).1 := by
    rcases List.mem_append.mp hsel with h | h
    · exfalso
      have hmt := hsel1mand c2 h
      rw [hml2] at hmt
      exact Bool.false_ne_true hmt
    · exact h
  rw [hsplit] at hc2p2 hndsorted
  obtain ⟨m1, m2, heq, hbm⟩ :=
    greedy_take_before l1 l2 p1.2 hndsorted
      (fun c hc => hcosts c (hsplit.symm ▸ hc)) hbl2 (le_of_eq hceq) hc2p2
  refine ⟨p1.1 ++ m1, m2, ?_, hbm⟩
  rw [hsplit, heq, List.append_assoc]

/-- Concrete instance of C9 amended: two non-mandate candidates of equal
positive cost; the lower-risk one is approved, and the higher-risk one
indeed appears strictly earlier in the selection. -/
theorem c9_amended_greedy_ordering_witness :
    ∃ m1 m2,
      (knapsack_selected (knapsack_enrich [issueHealth] [ceHigh, ceLow]) 75000000 true).1 =
        m1 ++ enrich [issueHealth] ceHigh :: m2 ∧
      enrich [issueHealth] ceLow ∈ m2 :=
  c9_amended_greedy_ordering (knapsack_enrich [issueHealth] [ceHigh, ceLow]) 75000000
    (enrich [issueHealth] ceHigh) (enrich [issueHealth] ceLow)
    (by decide)
    (by decide)
    (by simp [knapsack_enrich])
    (by simp [knapsack_enrich])
    (by decide)
    (by decide)
    (by decide)
    (by decide)
    (by decide)
    (by norm_num [knapsack_selected, knapsack_phase1, knapsack_mandates, knapsack_remaining,
      knapsack_enrich, enrich, ceHigh, ceLow, issueHealth, truthy, greedy_take, stableSort,
      insertStable, densityLe, value_density, List.find?])

/-! ## Calendar lemmas and claim C2 -/

theorem keysNodup_eq_of_sameKey :
    ∀ {cal : List CalEntry} {e e' : CalEntry}, keysNodup cal → e ∈ cal → e' ∈ cal →
      sameKey e e' → e = e' := by
  intro cal
  induction cal with
  | nil => intro e e' _ he; cases he
  | cons x xs ih =>
    intro e e' hk he he' hs
    rcases List.pairwise_cons.mp hk with ⟨hx, hxs⟩
    rcases List.mem_cons.mp he with he1 | he2
    · rcases List.mem_cons.mp he' with he'1 | he'2
      · rw [he1, he'1]
      · exfalso
        apply hx e' he'2
        rw [← he1]
        exact hs
    · rcases List.mem_cons.mp he' with he'1 | he'2
      · exfalso
        apply hx e he2
        rw [← he'1]
        exact ⟨hs.1.symm, hs.2.1.symm, hs.2.2.symm⟩
      · exact ih hxs he2 he'2 hs

theorem sameKey_of_calMatch {rtype : String} {week : Int} {e e' : CalEntry}
    (h : calMatch rtype week e = true) (h' : calMatch rtype week e' = true) :
    sameKey e e' := by
  simp only [calMatch, Bool.and_eq_true, beq_iff_eq] at h h'
  exact ⟨h.1.1.trans h'.1.1.symm, h.1.2.trans h'.1.2.symm, by rw [h.2, h'.2]⟩

/-- The row update of `allocate_resource` never changes a row's key (nor
its capacity). -/
theorem calUpd_key (rtype : String) (week units : Int) (e : CalEntry) :
    sameKey (if calMatch rtype week e then { e with allocated := e.allocated + units }
      else e) e ∧
    (if calMatch rtype week e then { e with allocated := e.allocated + units }
      else e).capacity = e.capacity := by
  split <;> exact ⟨⟨rfl, rfl, rfl⟩, rfl⟩

theorem allocate_resource_fail {cal : List CalEntry} {rtype : String} {week units : Int} :
    (allocate_resource cal rtype week units).2 = false →
    (allocate_resource cal rtype week units).1 = cal := by
  unfold allocate_resource
  split
  · intro h; cases h
  · intro _; rfl

theorem allocate_resource_success_iff {cal : List CalEntry} {rtype : String}
    {week units : Int} :
    (allocate_resource cal rtype week units).2 = true ↔
      get_available_capacity cal rtype week ≥ units := by
  unfold allocate_resource
  split
  case isTrue h => simp [h]
  case isFalse h => simp [h]

theorem get_available_capacity_eq_of_find {cal : List CalEntry} {rtype : String}
    {week : Int} {e0 : CalEntry} (hf : cal.find? (calMatch rtype week) = some e0) :
    get_available_capacity cal rtype week = e0.capacity - e0.allocated := by
  unfold get_available_capacity
  rw [hf]

theorem allocate_resource_valid {cal : List CalEntry} {rtype : String} {week units : Int}
    (hk : keysNodup cal) (hv : validCal cal) :
    validCal (allocate_resource cal rtype week units).1 := by
  unfold allocate_resource
  split
  case isFalse h => exact hv
  case isTrue h =>
    intro e' he'
    obtain ⟨e, he, rfl⟩ := List.mem_map.mp he'
    by_cases hm : calMatch rtype week e = true
    · rw [if_pos hm]
      show e.allocated + units ≤ e.capacity
      cases hf : cal.find? (calMatch rtype week) with
      | none =>
        exfalso
        exact List.find?_eq_none.mp hf e he hm
      | some e0 =>
        rw [get_available_capacity_eq_of_find hf] at h
        have he0 : e0 ∈ cal := List.mem_of_find?_eq_some hf
        have hm0 : calMatch rtype week e0 = true := List.find?_some hf
        have hee0 : e = e0 := keysNodup_eq_of_sameKey hk he he0 (sameKey_of_calMatch hm hm0)
        rw [← hee0] at h
        omega
    · rw [if_neg hm]
      exact hv e he

theorem allocate_resource_keys {cal : List CalEntry} {rtype : String} {week units : Int}
    (hk : keysNodup cal) : keysNodup (allocate_resource cal rtype week units).1 := by
  unfold allocate_resource
  split
  · refine List.Pairwise.map _ ?_ hk
    intro a b hab hs
    apply hab
    have ha := (calUpd_key rtype week units a).1
    have hb := (calUpd_key rtype week units b).1
    exact ⟨ha.1.symm.trans (hs.1.trans hb.1), ha.2.1.symm.trans (hs.2.1.trans hb.2.1),
      ha.2.2.symm.trans (hs.2.2.trans hb.2.2)⟩
  · exact hk

/-- C2: starting from a calendar whose rows have unique
(resource type, week, year) keys — the schema's UNIQUE constraint — and
satisfy `allocated ≤ capacity`, every row still satisfies
`allocated ≤ capacity` after any sequence of allocation requests; an
allocation succeeds exactly when the available capacity covers the
requested units; and a failed allocation leaves the calendar unchanged
(the rejection happens before any mutation). -/
theorem c2_calendar_invariant :
    (∀ (cal : List CalEntry) (reqs : List (String × Int × Int)),
      keysNodup cal → validCal cal → validCal (applyRequests cal reqs)) ∧
    (∀ (cal : List CalEntry) (rtype : String) (week units : Int),
      (allocate_resource cal rtype week units).2 = true ↔
        get_available_capacity cal rtype week ≥ units) ∧
    (∀ (cal : List CalEntry) (rtype : String) (week units : Int),
      (allocate_resource cal rtype week units).2 = false →
      (allocate_resource cal rtype week units).1 = cal) := by
  refine ⟨?_, ?_, ?_⟩
  · intro cal reqs
    induction reqs generalizing cal with
    | nil => intro _ hv; exact hv
    | cons q qs ih =>
      intro hk hv
      show validCal (applyRequests (allocate_resource cal q.1 q.2.1 q.2.2).1 qs)
      exact ih _ (allocate_resource_keys hk) (allocate_resource_valid hk hv)
  · intro cal rtype week units
    exact allocate_resource_success_iff
  · intro cal rtype week units
    exact allocate_resource_fail

/-- Concrete instance of C2: on a one-row calendar of capacity 3, two
requests for 2 units leave a valid calendar (the second is rejected); the
success condition and the no-mutation-on-failure property hold on concrete
rows. -/
theorem c2_calendar_invariant_witness :
    validCal (applyRequests
      [{ resource_type := "water_crew", week_number := 1, year := 2025,
         capacity := 3, allocated := 0 }]
      [("water_crew", 1, 2), ("water_crew", 1, 2)]) ∧
    ((allocate_resource
        [{ resource_type := "water_crew", week_number := 1, year := 2025,
           capacity := 3, allocated := 0 }] "water_crew" 1 2).2 = true ↔
      get_available_capacity
        [{ resource_type := "water_crew", week_number := 1, year := 2025,
           capacity := 3, allocated := 0 }] "water_crew" 1 ≥ 2) ∧
    (allocate_resource
        [{ resource_type := "water_crew", week_number := 1, year := 2025,
           capacity := 3, allocated := 2 }] "water_crew" 1 2).1 =
      [{ resource_type := "water_crew", week_number := 1, year := 2025,
         capacity := 3, allocated := 2 }] :=
  ⟨c2_calendar_invariant.1 _ [("water_crew", 1, 2), ("water_crew", 1, 2)]
      (by decide) (by decide),
   c2_calendar_invariant.2.1 _ "water_crew" 1 2,
   c2_calendar_invariant.2.2 _ "water_crew" 1 2 (by decide)⟩

/-! ## Scheduler lemmas -/

theorem scheduleOne_some {candidates : List CandRow} {issues : List IssueRow} {horizon : Int}
    {oracle : Oracle} {st : SchedState} {p : Project} {s : Int}
    (hf : findStartFor candidates issues horizon oracle st.cal p = some s) :
    scheduleOne candidates issues horizon oracle st p =
      { cal := commitWindow st.cal p s, tasks := st.tasks ++ [mkTask p s],
        infeasible := st.infeasible } := by
  unfold scheduleOne
  rw [hf]

theorem scheduleOne_none {candidates : List CandRow} {issues : List IssueRow} {horizon : Int}
    {oracle : Oracle} {st : SchedState} {p : Project}
    (hf : findStartFor candidates issues horizon oracle st.cal p = none) :
    scheduleOne candidates issues horizon oracle st p =
      { st with infeasible := st.infeasible ++ [p] } := by
  unfold scheduleOne
  rw [hf]

/-- The first hit of `find?` over `intRange a b` is the least element of
the range satisfying the predicate. -/
theorem find?_intRange_first {p : Int → Bool} :
    ∀ (n : Nat) (a b s : Int), (b - a).toNat = n → (intRange a b).find? p = some s →
      a ≤ s ∧ s < b ∧ p s = true ∧ ∀ t, a ≤ t → t < s → p t = false := by
  intro n
  induction n with
  | zero =>
    intro a b s hn hf
    rw [intRange_eq_nil (by omega)] at hf
    cases hf
  | succ n ih =>
    intro a b s hn hf
    have hab : a < b := by omega
    rw [intRange_cons hab] at hf
    cases hpa : p a with
    | true =>
      rw [List.find?_cons_of_pos _ hpa, Option.some.injEq] at hf
      subst hf
      exact ⟨le_refl _, hab, hpa, fun t ht1 ht2 => absurd (lt_of_le_of_lt ht1 ht2)
        (lt_irrefl _)⟩
    | false =>
      rw [List.find?_cons_of_neg _ (by simp [hpa])] at hf
      obtain ⟨h1, h2, h3, h4⟩ := ih (a + 1) b s (by omega) hf
      refine ⟨by omega, h2, h3, ?_⟩
      intro t ht1 ht2
      by_cases hta : t = a
      · rw [hta]
        exact hpa
      · exact h4 t (by omega) ht2

/-- Every task produced by the fold comes from the initial state or from
one of the processed projects, with the duration law by construction. -/
theorem foldl_scheduleOne_tasks (candidates : List CandRow) (issues : List IssueRow)
    (horizon : Int) (oracle : Oracle) :
    ∀ (ps : List Project) (st : SchedState) (t : ScheduleTask),
      t ∈ (ps.foldl (scheduleOne candidates issues horizon oracle) st).tasks →
      t ∈ st.tasks ∨ ∃ p ∈ ps, p.project_id = t.project_id ∧
        t.end_week - t.start_week + 1 = p.estimated_weeks := by
  intro ps
  induction ps with
  | nil => intro st t ht; exact Or.inl ht
  | cons p rest ih =>
    intro st t ht
    rcases ih (scheduleOne candidates issues horizon oracle st p) t ht with h | ⟨q, hq, hm⟩
    · cases hf : findStartFor candidates issues horizon oracle st.cal p with
      | some s =>
        rw [scheduleOne_some hf] at h
        rcases List.mem_append.mp h with h1 | h1
        · exact Or.inl h1
        · right
          refine ⟨p, List.mem_cons_self _ _, ?_⟩
          have ht : t = mkTask p s := by simpa using h1
          rw [ht]
          refine ⟨rfl, ?_⟩
          show s + p.estimated_weeks - 1 - s + 1 = p.estimated_weeks
          omega
      | none =>
        rw [scheduleOne_none hf] at h
        exact Or.inl h
    · exact Or.inr ⟨q, List.mem_cons_of_mem _ hq, hm⟩

theorem noRow_get_available {cal : List CalEntry} {rtype : String} {week : Int}
    (h : noRow rtype cal) : get_available_capacity cal rtype week = 0 := by
  unfold get_available_capacity
  rw [List.find?_eq_none.mpr ?_]
  intro e he hcm
  simp only [calMatch, Bool.and_eq_true, beq_iff_eq] at hcm
  exact h e he ⟨hcm.1.1, hcm.2⟩

theorem noRow_allocate {cal : List CalEntry} {rtype rt' : String} {week units : Int}
    (h : noRow rtype cal) : noRow rtype (allocate_resource cal rt' week units).1 := by
  unfold allocate_resource
  split
  · intro e' he'
    obtain ⟨e, he, rfl⟩ := List.mem_map.mp he'
    have hk := (calUpd_key rt' week units e).1
    intro hcontra
    exact h e he ⟨hk.1.symm.trans hcontra.1, hk.2.2.symm.trans hcontra.2⟩
  · exact h

theorem noRow_foldl_alloc (rtype : String) :
    ∀ (ws : List Int) (cal : List CalEntry) (rt' : String) (units : Int),
      noRow rtype cal →
      noRow rtype (ws.foldl (fun c w => (allocate_resource c rt' w units).1) cal) := by
  intro ws
  induction ws with
  | nil => intro cal rt' units h; exact h
  | cons w rest ih =>
    intro cal rt' units h
    exact ih _ rt' units (noRow_allocate h)

theorem noRow_commitWindow {cal : List CalEntry} {rtype : String} {p : Project} {s : Int}
    (h : noRow rtype cal) : noRow rtype (commitWindow cal p s) :=
  noRow_foldl_alloc rtype _ cal p.required_crew_type p.crew_size h

theorem noRow_scheduleOne {candidates : List CandRow} {issues : List IssueRow} {horizon : Int}
    {oracle : Oracle} {st : SchedState} {p : Project} {rtype : String}
    (h : noRow rtype st.cal) :
    noRow rtype (scheduleOne candidates issues horizon oracle st p).cal := by
  cases hf : findStartFor candidates issues horizon oracle st.cal p with
  | some s =>
    rw [scheduleOne_some hf]
    exact noRow_commitWindow h
  | none =>
    rw [scheduleOne_none hf]
    exact h

/-- With no calendar row for the project's crew type and a positive crew
size and duration, every window fails the capacity check. -/
theorem findStartFor_none {candidates : List CandRow} {issues : List IssueRow}
    {horizon : Int} {oracle : Oracle} {cal : List CalEntry} {p : Project}
    (h : noRow p.required_crew_type cal) (hcrew : 1 ≤ p.crew_size)
    (hdur : 1 ≤ p.estimated_weeks) :
    findStartFor candidates issues horizon oracle cal p = none := by
  unfold findStartFor
  rw [List.find?_eq_none]
  intro s _ hwf
  unfold windowFeasible at hwf
  rw [Bool.and_eq_true] at hwf
  have hall := hwf.1
  rw [List.all_eq_true] at hall
  have hsmem : s ∈ intRange s (s + p.estimated_weeks) :=
    mem_intRange.mpr ⟨le_refl s, by omega⟩
  have hone := hall s hsmem
  rw [Bool.and_eq_true, decide_eq_true_eq, decide_eq_true_eq] at hone
  have h2 := hone.2
  rw [noRow_get_available h] at h2
  omega

theorem foldl_infeasible_mono (candidates : List CandRow) (issues : List IssueRow)
    (horizon : Int) (oracle : Oracle) :
    ∀ (ps : List Project) (st : SchedState) (x : Project), x ∈ st.infeasible →
      x ∈ (ps.foldl (scheduleOne candidates issues horizon oracle) st).infeasible := by
  intro ps
  induction ps with
  | nil => intro st x hx; exact hx
  | cons p rest ih =>
    intro st x hx
    apply ih
    cases hf : findStartFor candidates issues horizon oracle st.cal p with
    | some s =>
      rw [scheduleOne_some hf]
      exact hx
    | none =>
      rw [scheduleOne_none hf]
      exact List.mem_append_left _ hx

theorem nodup_map_split {α β : Type} {f : α → β} {l1 l2 : List α} {a : α}
    (h : ((l1 ++ a :: l2).map f).Nodup) :
    (∀ b ∈ l1, f b ≠ f a) ∧ (∀ b ∈ l2, f b ≠ f a) := by
  rw [List.map_append, List.map_cons, List.nodup_append] at h
  constructor
  · intro b hb heq
    exact h.2.2 (List.mem_map_of_mem _ hb) (heq ▸ List.mem_cons_self _ _)
  · intro b hb heq
    exact (List.nodup_cons.mp h.2.1).1 (heq ▸ List.mem_map_of_mem _ hb)

/-- Invariant fold for C10: processing projects whose ids differ from `pid`
preserves absence of `rtype` rows and absence of `pid` tasks. -/
theorem foldl_scheduleOne_inv (candidates : List CandRow) (issues : List IssueRow)
    (horizon : Int) (oracle : Oracle) (rtype : String) (pid : Int) :
    ∀ (ps : List Project) (st : SchedState),
      (∀ q ∈ ps, q.project_id ≠ pid) →
      noRow rtype st.cal → (∀ t ∈ st.tasks, t.project_id ≠ pid) →
      noRow rtype (ps.foldl (scheduleOne candidates issues horizon oracle) st).cal ∧
      (∀ t ∈ (ps.foldl (scheduleOne candidates issues horizon oracle) st).tasks,
        t.project_id ≠ pid) := by
  intro ps
  induction ps with
  | nil => intro st _ h1 h2; exact ⟨h1, h2⟩
  | cons q rest ih =>
    intro st hqs h1 h2
    apply ih
    · intro r hr
      exact hqs r (List.mem_cons_of_mem _ hr)
    · exact noRow_scheduleOne h1
    · cases hf : findStartFor candidates issues horizon oracle st.cal q with
      | some s =>
        rw [scheduleOne_some hf]
        intro t ht
        rcases List.mem_append.mp ht with h | h
        · exact h2 t h
        · have : t = mkTask q s := by simpa using h
          rw [this]
          exact hqs q (List.mem_cons_self _ _)
      | none =>
        rw [scheduleOne_none hf]
        exact h2

/-! ## Claim C6 -/

/-- C6: the per-project scan is earliest-fit — when `findStartFor` commits
start week `s`, `s` lies in `1 .. horizon − duration + 1`, its window is
feasible, and every earlier start week is infeasible — and in the concrete
scenario (one crew type of weekly capacity 3, two approved projects of
crew size 2 and duration 2, horizon 12) the first project is placed at
weeks 1-2 and the second at weeks 3-4, with nothing infeasible. -/
theorem c6_earliest_fit :
    (∀ (candidates : List CandRow) (issues : List IssueRow) (horizon : Int)
      (oracle : Oracle) (cal : List CalEntry) (p : Project) (s : Int),
      findStartFor candidates issues horizon oracle cal p = some s →
      1 ≤ s ∧ s < horizon - p.estimated_weeks + 2 ∧
      windowFeasible cal p.required_crew_type p.crew_size horizon p.estimated_weeks
        (is_outdoor_project (categoryOf candidates issues p.project_id)
          p.required_crew_type) oracle s = true ∧
      ∀ t, 1 ≤ t → t < s →
        windowFeasible cal p.required_crew_type p.crew_size horizon p.estimated_weeks
          (is_outdoor_project (categoryOf candidates issues p.project_id)
            p.required_crew_type) oracle t = false) ∧
    ((run_greedy_scheduler [scenProjectA, scenProjectB] scenCands scenIssues 12 mock_oracle
        scenCalendar).tasks.map (fun t => (t.project_id, t.start_week, t.end_week)) =
      [(1, 1, 2), (2, 3, 4)] ∧
     (run_greedy_scheduler [scenProjectA, scenProjectB] scenCands scenIssues 12 mock_oracle
        scenCalendar).infeasible = []) := by
  constructor
  · intro candidates issues horizon oracle cal p s hf
    exact find?_intRange_first (horizon - p.estimated_weeks + 2 - 1).toNat 1 _ s rfl hf
  · exact ⟨by decide, by decide⟩

/-- Concrete instance of C6's earliest-fit law: with week 1 partially
allocated, the committed start week is 2, week 1 being infeasible. -/
theorem c6_earliest_fit_witness :
    (1 : Int) ≤ 2 ∧ (2 : Int) < 2 - (1 : Int) + 2 ∧
    windowFeasible
      [{ resource_type := "electrical_crew", week_number := 1, year := 2025,
         capacity := 3, allocated := 2 },
       { resource_type := "electrical_crew", week_number := 2, year := 2025,
         capacity := 3, allocated := 0 }]
      "electrical_crew" 2 2 1 false mock_oracle 2 = true ∧
    (∀ t, 1 ≤ t → t < 2 →
      windowFeasible
        [{ resource_type := "electrical_crew", week_number := 1, year := 2025,
           capacity := 3, allocated := 2 },
         { resource_type := "electrical_crew", week_number := 2, year := 2025,
           capacity := 3, allocated := 0 }]
        "electrical_crew" 2 2 1 false mock_oracle t = false) :=
  c6_earliest_fit.1 [] []  2 mock_oracle
    [{ resource_type := "electrical_crew", week_number := 1, year := 2025,
       capacity := 3, allocated := 2 },
     { resource_type := "electrical_crew", week_number := 2, year := 2025,
       capacity := 3, allocated := 0 }]
    { project_id := 7, priority_rank := 1, estimated_weeks := 1,
      required_crew_type := "electrical_crew", crew_size := 2 }
    2 (by decide)

/-! ## Claim C7 -/

theorem checkTask_found {projects : List Project} {cal : List CalEntry} {t : ScheduleTask}
    {p : Project}
    (hfind : projects.find? (fun q => q.project_id == t.project_id) = some p) :
    checkTask projects cal t =
      (if t.start_week < 1 || t.end_week < t.start_week then
        [Finding.invalidRange t.project_id t.start_week t.end_week] else []) ++
      (if (t.end_week - t.start_week + 1) ≠ p.estimated_weeks then
        [Finding.durationMismatch t.project_id (t.end_week - t.start_week + 1)
          p.estimated_weeks] else []) ++
      ((intRange t.start_week (t.end_week + 1)).filterMap (fun w =>
        if get_available_capacity cal t.resource_type w < t.crew_assigned then
          some (Finding.resourceViolation t.project_id w t.crew_assigned
            (get_available_capacity cal t.resource_type w))
        else none)) := by
  unfold checkTask
  rw [hfind]

/-- C7: every task the scheduler persists satisfies
`end_week − start_week + 1 = estimated_weeks` for its project (end week is
computed as `start + duration − 1` at commit time), and for a task whose
project is found, the validator emits the duration-mismatch finding
exactly when the equality fails. -/
theorem c7_duration_law :
    (∀ (projects : List Project) (candidates : List CandRow) (issues : List IssueRow)
      (horizon : Int) (oracle : Oracle) (cal : List CalEntry) (t : ScheduleTask),
      t ∈ (run_greedy_scheduler projects candidates issues horizon oracle cal).tasks →
      ∃ p ∈ projects, p.project_id = t.project_id ∧
        t.end_week - t.start_week + 1 = p.estimated_weeks) ∧
    (∀ (projects : List Project) (cal : List CalEntry) (t : ScheduleTask) (p : Project),
      projects.find? (fun q => q.project_id == t.project_id) = some p →
      (Finding.durationMismatch t.project_id (t.end_week - t.start_week + 1)
          p.estimated_weeks ∈ checkTask projects cal t ↔
        t.end_week - t.start_week + 1 ≠ p.estimated_weeks)) := by
  constructor
  · intro projects candidates issues horizon oracle cal t ht
    unfold run_greedy_scheduler at ht
    rcases foldl_scheduleOne_tasks candidates issues horizon oracle _ _ t ht with h | ⟨p, hp, hm⟩
    · cases h
    · exact ⟨p, mem_stableSort.mp hp, hm⟩
  · intro projects cal t p hfind
    rw [checkTask_found hfind]
    constructor
    · intro hmem
      by_contra heq
      rw [if_neg (not_not_intro heq), List.append_nil] at hmem
      rcases List.mem_append.mp hmem with h | h
      · split at h
        · simp at h
        · cases h
      · obtain ⟨w, _, hw⟩ := List.mem_filterMap.mp h
        split at hw
        · simp at hw
        · cases hw
    · intro hne
      refine List.mem_append.mpr (Or.inl (List.mem_append.mpr (Or.inr ?_)))
      rw [if_pos hne]
      exact List.mem_cons_self _ _

/-- Concrete instance of C7: the first scenario task spans weeks 1-2 for
the 2-week project, and the validator's duration check fires exactly on a
mismatch for a concrete bad task. -/
theorem c7_duration_law_witness :
    (∃ p ∈ [scenProjectA, scenProjectB],
      p.project_id = (1 : Int) ∧ (2 : Int) - 1 + 1 = p.estimated_weeks) ∧
    (Finding.durationMismatch 1 ((5 : Int) - 1 + 1) scenProjectA.estimated_weeks ∈
        checkTask [scenProjectA, scenProjectB] scenCalendar
          { project_id := 1, start_week := 1, end_week := 5,
            resource_type := "electrical_crew", crew_assigned := 2 } ↔
      (5 : Int) - 1 + 1 ≠ scenProjectA.estimated_weeks) :=
  ⟨c7_duration_law.1 [scenProjectA, scenProjectB] scenCands scenIssues 12 mock_oracle
      scenCalendar
      { project_id := 1, start_week := 1, end_week := 2,
        resource_type := "electrical_crew", crew_assigned := 2 } (by decide),
   c7_duration_law.2 [scenProjectA, scenProjectB] scenCalendar
      { project_id := 1, start_week := 1, end_week := 5,
        resource_type := "electrical_crew", crew_assigned := 2 } scenProjectA (by decide)⟩

/-! ## Claim C8 -/

/-- Two oracles whose windows pass the weather check identically give the
same scheduler run. -/
theorem run_greedy_scheduler_oracle_congr (projects : List Project)
    (candidates : List CandRow) (issues : List IssueRow) (horizon : Int) {o1 o2 : Oracle}
    (h : ∀ s e, weatherPass (o1 s e) = weatherPass (o2 s e)) (cal : List CalEntry) :
    run_greedy_scheduler projects candidates issues horizon o1 cal =
      run_greedy_scheduler projects candidates issues horizon o2 cal := by
  unfold run_greedy_scheduler
  have hstep : scheduleOne candidates issues horizon o1 =
      scheduleOne candidates issues horizon o2 := by
    funext st p
    unfold scheduleOne findStartFor
    have hwf : windowFeasible st.cal p.required_crew_type p.crew_size horizon
        p.estimated_weeks (is_outdoor_project (categoryOf candidates issues p.project_id)
          p.required_crew_type) o1 =
        windowFeasible st.cal p.required_crew_type p.crew_size horizon p.estimated_weeks
          (is_outdoor_project (categoryOf candidates issues p.project_id)
            p.required_crew_type) o2 := by
      funext s
      unfold windowFeasible
      rw [h]
    rw [hwf]
  rw [hstep]

/-- C8: a weather oracle whose every call raises (times out) is absorbed
fail-open — the whole scheduler run equals the run against an
always-clear oracle, so every window stays eligible and no failure is
propagated (the embedded scheduler is total) — and for an outdoor project
a window queried through the failing oracle is feasible exactly when its
capacity check passes. -/
theorem c8_oracle_fail_open :
    (∀ (projects : List Project) (candidates : List CandRow) (issues : List IssueRow)
      (horizon : Int) (cal : List CalEntry),
      run_greedy_scheduler projects candidates issues horizon failing_oracle cal =
        run_greedy_scheduler projects candidates issues horizon clear_oracle cal) ∧
    (∀ (cal : List CalEntry) (rtype : String) (crew horizon duration s : Int),
      windowFeasible cal rtype crew horizon duration true failing_oracle s =
        (intRange s (s + duration)).all
          (fun w => decide (w ≤ horizon) &&
            decide (get_available_capacity cal rtype w ≥ crew))) := by
  constructor
  · intro projects candidates issues horizon cal
    apply run_greedy_scheduler_oracle_congr
    intro s e
    rfl
  · intro cal rtype crew horizon duration s
    unfold windowFeasible failing_oracle weatherPass
    simp

/-! ## Claim C10 -/

/-- C10: when no calendar row matches a (resource type, week) query — an
unknown crew type, an unseeded week, or a year other than 2025 —
`get_available_capacity` returns 0; consequently an approved project
requiring a crew type with no 2025 rows (crew size and duration at least
1, project ids unique) is reported infeasible by the scheduler, and no
task is created for it. -/
theorem c10_missing_row_infeasible :
    (∀ (cal : List CalEntry) (rtype : String) (week : Int),
      (∀ e ∈ cal, calMatch rtype week e = false) →
      get_available_capacity cal rtype week = 0) ∧
    (∀ (projects : List Project) (candidates : List CandRow) (issues : List IssueRow)
      (horizon : Int) (oracle : Oracle) (cal : List CalEntry) (p : Project),
      (projects.map (fun q => q.project_id)).Nodup → p ∈ projects →
      noRow p.required_crew_type cal → 1 ≤ p.crew_size → 1 ≤ p.estimated_weeks →
      p ∈ (run_greedy_scheduler projects candidates issues horizon oracle cal).infeasible ∧
      ∀ t ∈ (run_greedy_scheduler projects candidates issues horizon oracle cal).tasks,
        t.project_id ≠ p.project_id) := by
  constructor
  · intro cal rtype week h
    unfold get_available_capacity
    rw [List.find?_eq_none.mpr ?_]
    intro e he hcm
    rw [h e he] at hcm
    cases hcm
  · intro projects candidates issues horizon oracle cal p hnd hp hnr hcrew hdur
    unfold run_greedy_scheduler
    have hps : p ∈ stableSort rankLe projects := mem_stableSort.mpr hp
    obtain ⟨l1, l2, hdecomp⟩ := List.append_of_mem hps
    have hndsorted : ((stableSort rankLe projects).map (fun q => q.project_id)).Nodup :=
      (((stableSort_perm rankLe projects).map _).nodup_iff).mpr hnd
    rw [hdecomp] at hndsorted
    obtain ⟨hl1, hl2⟩ := nodup_map_split hndsorted
    rw [hdecomp, List.foldl_append, List.foldl_cons]
    set st0 : SchedState := { cal := cal, tasks := [], infeasible := [] } with hst0
    obtain ⟨hcal1, htasks1⟩ := foldl_scheduleOne_inv candidates issues horizon oracle
      p.required_crew_type p.project_id l1 st0 hl1 hnr (by intro t ht; cases ht)
    set st1 := l1.foldl (scheduleOne candidates issues horizon oracle) st0 with hst1
    have hfnone : findStartFor candidates issues horizon oracle st1.cal p = none :=
      findStartFor_none hcal1 hcrew hdur
    rw [scheduleOne_none hfnone]
    set st2 : SchedState :=
      { st1 with infeasible := st1.infeasible ++ [p] } with hst2
    obtain ⟨hcal2, htasks2⟩ := foldl_scheduleOne_inv candidates issues horizon oracle
      p.required_crew_type p.project_id l2 st2 hl2 hcal1 htasks1
    constructor
    · apply foldl_infeasible_mono
      exact List.mem_append_right _ (List.mem_cons_self _ _)
    · exact htasks2

/-- Concrete instance of C10: a project requiring an unknown crew type on
the scenario calendar is reported infeasible and yields no task. -/
theorem c10_missing_row_infeasible_witness :
    ({ project_id := 9, priority_rank := 1, estimated_weeks := 2,
       required_crew_type := "robot_crew", crew_size := 1 } : Project) ∈
      (run_greedy_scheduler
        [{ project_id := 9, priority_rank := 1, estimated_weeks := 2,
           required_crew_type := "robot_crew", crew_size := 1 }]
        scenCands scenIssues 12 mock_oracle scenCalendar).infeasible ∧
    ∀ t ∈ (run_greedy_scheduler
        [{ project_id := 9, priority_rank := 1, estimated_weeks := 2,
           required_crew_type := "robot_crew", crew_size := 1 }]
        scenCands scenIssues 12 mock_oracle scenCalendar).tasks,
      t.project_id ≠ (9 : Int) :=
  c10_missing_row_infeasible.2
    [{ project_id := 9, priority_rank := 1, estimated_weeks := 2,
       required_crew_type := "robot_crew", crew_size := 1 }]
    scenCands scenIssues 12 mock_oracle scenCalendar
    { project_id := 9, priority_rank := 1, estimated_weeks := 2,
      required_crew_type := "robot_crew", crew_size := 1 }
    (by decide) (by decide) (by decide) (by decide) (by decide)

end CityPlanning
